import Mathlib

/-!
Verification of the Streakwiz PostgreSQL model layer (`models/index.js`).

The file embeds, as executable Lean definitions, the Sequelize model layer of
the repository: the `GuildConfig.triggerWords` setter, the `Streak` model with
its column defaults and `triggerWord` setter, the `beforeSave` hook, the
`withRetry` helper and its retry configuration, and the `migrateDatabase` /
`initializeDatabase` startup routines.  JavaScript strings are modelled as
lists of UTF-16 code units (`List Nat`), and the subset of JavaScript values
the setters inspect is modelled by `JSValue`.
-/

/-- A JavaScript string: a list of UTF-16 code units. -/
abbrev JStr := List Nat

/-- Build a `JStr` from a Lean string literal (code points of the literal). -/
def jstr (s : String) : JStr := s.data.map Char.toNat

/-- Code units treated as whitespace by `String.prototype.trim` (the common
ones: tab, LF, VT, FF, CR, space, NBSP, LS, PS, BOM). -/
def jsWhitespace (c : Nat) : Bool :=
  c = 9 || c = 10 || c = 11 || c = 12 || c = 13 || c = 32 ||
  c = 160 || c = 8232 || c = 8233 || c = 65279

/-- `String.prototype.toLowerCase` on one code unit (ASCII range, which is the
only range the trigger words of the bot exercise). -/
def jsCharToLower (c : Nat) : Nat :=
  if 65 ≤ c ∧ c ≤ 90 then c + 32 else c

/-- `String.prototype.toLowerCase` on a whole string. -/
def jsToLowerCase (s : JStr) : JStr := s.map jsCharToLower

/-- `String.prototype.trim`: drop leading and trailing whitespace. -/
def jsTrim (s : JStr) : JStr :=
  (((s.dropWhile jsWhitespace).reverse).dropWhile jsWhitespace).reverse

/-- The JavaScript values the model-layer setters distinguish: strings,
numbers, booleans, `null` and `undefined`. -/
inductive JSValue where
  | str (s : JStr)
  | num (n : Int)
  | boolean (b : Bool)
  | nullv
  | undef
deriving DecidableEq

/-- JavaScript truthiness of a `JSValue`. -/
def jsTruthy : JSValue → Bool
  | .str s => !s.isEmpty
  | .num n => decide (n ≠ 0)
  | .boolean b => b
  | .nullv => false
  | .undef => false

/-- `typeof v === "string"`. -/
def isString : JSValue → Bool
  | .str _ => true
  | _ => false

/-- The string payload of a `JSValue` (only ever read behind `isString`). -/
def strVal : JSValue → JStr
  | .str s => s
  | _ => []

/-- The `GuildConfig.triggerWords` setter (models/index.js lines 39-47):
`value.filter(w => w && typeof w === "string").map(w => w.toLowerCase().trim())
.filter(w => w.length > 0)`.  The non-array input case (which stores `[]`) is
not modelled; inputs are lists of `JSValue`. -/
def setTriggerWords (value : List JSValue) : List JStr :=
  (((value.filter fun v => jsTruthy v && isString v).map strVal).map
    fun w => jsTrim (jsToLowerCase w)).filter fun w => 0 < w.length

/-- The `Streak.triggerWord` setter (models/index.js lines 79-84): throw when
the value is falsy or not a string, otherwise store `value.toLowerCase().trim()`. -/
def setTriggerWord (v : JSValue) : Except String JStr :=
  match v with
  | .str s =>
    if s.isEmpty then Except.error "Trigger word must be a non-empty string"
    else Except.ok (jsTrim (jsToLowerCase s))
  | _ => Except.error "Trigger word must be a non-empty string"

/-- A row of the `Streaks` table, with the columns declared by the `Streak`
model (models/index.js lines 62-110).  `NOT NULL` columns carry bare values;
the nullable `lastStreakDate` is an `Option`. -/
structure StreakRow where
  id : Int
  guildId : String
  userId : String
  triggerWord : JStr
  count : Int
  bestStreak : Int
  streakStreak : Int
  lastStreakDate : Option Nat
  lastUpdated : Nat
deriving DecidableEq

/-- `Streak.create` with no explicit `count`/`bestStreak`/`streakStreak`/
`lastStreakDate` supplied: the `triggerWord` setter runs, and the column
defaults `count = 1`, `bestStreak = 1`, `streakStreak = 0`,
`lastStreakDate = NULL`, `lastUpdated = NOW` fill the remaining fields. -/
def createStreak (id : Int) (guildId userId : String) (word : JSValue)
    (now : Nat) : Except String StreakRow :=
  match setTriggerWord word with
  | .error e => Except.error e
  | .ok w =>
    Except.ok { id := id, guildId := guildId, userId := userId,
                triggerWord := w, count := 1, bestStreak := 1,
                streakStreak := 0, lastStreakDate := none, lastUpdated := now }

/-- The `beforeSave` hook (models/index.js lines 113-117): when the pending
save changed `count` and `count > bestStreak`, set `bestStreak := count`.
`prev` is the record as last persisted, `updated` the record being saved;
`streak.changed("count")` is `updated.count ≠ prev.count`. -/
def saveStreak (prev updated : StreakRow) : StreakRow :=
  if updated.count ≠ prev.count ∧ updated.bestStreak < updated.count then
    { updated with bestStreak := updated.count }
  else updated

/-- The retry configuration (models/index.js lines 13-22): `maxRetries`. -/
def retryConfigMaxRetries : Nat := 3

/-- The retry configuration (models/index.js lines 13-22): `retryDelay` in
milliseconds. -/
def retryConfigRetryDelay : Nat := 1000

/-- A JavaScript `Error` as far as `withRetry` inspects it: its `name`. -/
structure JsError where
  name : String
deriving DecidableEq

/-- `retryConfig.retryOnError` (models/index.js lines 16-21): the four
transient Sequelize connection error names. -/
def retryOnError (e : JsError) : Bool :=
  e.name == "SequelizeConnectionError" ||
  e.name == "SequelizeConnectionRefusedError" ||
  e.name == "SequelizeHostNotFoundError" ||
  e.name == "SequelizeHostNotReachableError"

/-- The loop body of `withRetry` (models/index.js lines 234-254).  `op n` is
the outcome of the `n`-th attempt; the result carries the thrown error
(`none` models the unreachable `throw lastError` of an undefined
`lastError`) together with the list of backoff delays slept, in order. -/
def withRetryGo (op : Nat → Except JsError Nat) (maxRetries attempt : Nat)
    (lastError : Option JsError) (delays : List Nat) :
    Except (Option JsError) Nat × List Nat :=
  if maxRetries < attempt then (Except.error lastError, delays)
  else
    match op attempt with
    | .ok v => (Except.ok v, delays)
    | .error e =>
      if _h2 : retryOnError e = true ∧ attempt < maxRetries then
        withRetryGo op maxRetries (attempt + 1) (some e)
          (delays ++ [retryConfigRetryDelay * attempt])
      else (Except.error (some e), delays)
termination_by maxRetries + 1 - attempt
decreasing_by omega

/-- `withRetry(operation)` with the default `maxRetries = retryConfig.maxRetries`
(models/index.js line 234). -/
def withRetry (op : Nat → Except JsError Nat) :
    Except (Option JsError) Nat × List Nat :=
  withRetryGo op retryConfigMaxRetries 1 none []

/-- The schema-plus-data state `migrateDatabase` acts on: whether the two
tables exist, their column lists, and the `Streaks` rows. -/
structure DbState where
  hasGuildConfigs : Bool
  hasStreaks : Bool
  guildConfigCols : List String
  streakCols : List String
  streakRows : List StreakRow
deriving DecidableEq

/-- One guarded `ALTER TABLE ... ADD COLUMN` loop: for each requested column,
check `checkColumnExists` and add the column only when absent.  Returns the
new column list and how many `ADD COLUMN` statements ran. -/
def addColumns : List String → List String → List String × Nat
  | cols, [] => (cols, 0)
  | cols, c :: rest =>
    if c ∈ cols then addColumns cols rest
    else
      let r := addColumns (cols ++ [c]) rest
      (r.1, r.2 + 1)

/-- The single column added to `GuildConfigs` (models/index.js lines 146-153). -/
def guildConfigColumnsToAdd : List String := ["streakStreakEnabled"]

/-- `columnsToAdd` for `Streaks` (models/index.js lines 159-163). -/
def streakColumnsToAdd : List String :=
  ["streakStreak", "lastStreakDate", "bestStreak"]

/-- `requiredColumns` for `Streaks` (models/index.js lines 186-196). -/
def requiredStreakColumns : List String :=
  ["id", "guildId", "userId", "triggerWord", "count", "bestStreak",
   "streakStreak", "lastStreakDate", "lastUpdated"]

/-- The data fix-up `UPDATE "Streaks" SET "bestStreak" = "count" WHERE
"bestStreak" < "count"` (models/index.js lines 180-183), per row. -/
def fixBestStreak (r : StreakRow) : StreakRow :=
  if r.bestStreak < r.count then { r with bestStreak := r.count } else r

/-- Failure injection points of `migrateDatabase`: a throw while backing up
either table (inside the outer `try`, lines 138-139), a throw during the
ALTER/UPDATE work, or a failing commit (both inside the inner `try`,
lines 141-211). -/
inductive MigFail where
  | backupGuildConfigs
  | backupStreaks
  | alter
  | commitFail
deriving DecidableEq

/-- What one call of `migrateDatabase` did: the resulting database state, how
many `ADD COLUMN` statements ran, whether the transaction committed or rolled
back, whether a restore from the in-memory backups was attempted and
succeeded, and whether an error propagated to the caller. -/
structure MigResult where
  db : DbState
  additions : Nat
  committed : Bool
  rolledBack : Bool
  restoreAttempted : Bool
  restoredOk : Bool
  thrown : Bool
deriving DecidableEq

/-- `migrateDatabase` (models/index.js lines 120-231).  `failAt` injects a
failure at one of the `MigFail` points (`none` is a failure-free run);
`restoreFails` makes the `restoreFromBackup` calls of the inner catch throw.
Branches, in source order: missing tables commit and return early; a backup
failure is caught by the outer catch, which rolls back and rethrows; a
failure in the inner `try` (ALTER/UPDATE work or the commit itself) is caught
by the inner catch, which rolls back, attempts a restore, and returns without
rethrowing; otherwise the guarded column additions and the bestStreak fix-up
run and the transaction commits. -/
def migrateRun (db : DbState) (failAt : Option MigFail) (restoreFails : Bool) :
    MigResult :=
  if !db.hasGuildConfigs || !db.hasStreaks then
    { db := db, additions := 0, committed := true, rolledBack := false,
      restoreAttempted := false, restoredOk := false, thrown := false }
  else if failAt = some MigFail.backupGuildConfigs ∨
          failAt = some MigFail.backupStreaks then
    { db := db, additions := 0, committed := false, rolledBack := true,
      restoreAttempted := false, restoredOk := false, thrown := true }
  else if failAt = some MigFail.alter ∨ failAt = some MigFail.commitFail then
    { db := db, additions := 0, committed := false, rolledBack := true,
      restoreAttempted := true, restoredOk := !restoreFails, thrown := false }
  else
    let gc := addColumns db.guildConfigCols guildConfigColumnsToAdd
    let s1 := addColumns db.streakCols streakColumnsToAdd
    let s2 := addColumns s1.1 requiredStreakColumns
    let db2 : DbState :=
      { db with
        guildConfigCols := gc.1
        streakCols := s2.1
        streakRows := db.streakRows.map fixBestStreak }
    { db := db2, additions := gc.2 + s1.2 + s2.2, committed := true,
      rolledBack := false, restoreAttempted := false, restoredOk := false,
      thrown := false }

/-- `initializeDatabase` (models/index.js lines 320-334) awaits
`migrateDatabase` and rethrows any error, so startup fails exactly when
`migrateDatabase` throws (`sequelize.sync` is not modelled). -/
def initializeDatabaseFails (db : DbState) (failAt : Option MigFail)
    (restoreFails : Bool) : Bool :=
  (migrateRun db failAt restoreFails).thrown

/-- Modelled from the spec: the raid command implementation is not under
`src/` (only the model/migration layer is), so the raid progressive bonus is
modelled from the spec.  Spec §8 gives the instances `targetCount=24 → +0.03`,
`targetCount=25 → +0.06`, `targetCount=100 → +0.15`, `targetCount=9 → +0`, and
the repository README documents the tiers as the inclusive ranges
`10-24 → +3%`, `25-49 → +6%`, `50-74 → +9%`, `75-99 → +12%`, `100+ → +15%`. -/
def progressiveBonus (targetCount : Int) : ℚ :=
  if 100 ≤ targetCount then 15/100
  else if 75 ≤ targetCount then 12/100
  else if 50 ≤ targetCount then 9/100
  else if 25 ≤ targetCount then 6/100
  else if 10 ≤ targetCount then 3/100
  else 0

/-- The step function exactly as the claim words it: half-open intervals
`[10,24) → 0.03`, `[25,49) → 0.06`, `[50,74) → 0.09`, `[75,99) → 0.12`,
`[100,∞) → 0.15`, anything else `0`. -/
def progressiveBonusClaimIntervals (t : Int) : ℚ :=
  if 10 ≤ t ∧ t < 24 then 3/100
  else if 25 ≤ t ∧ t < 49 then 6/100
  else if 50 ≤ t ∧ t < 74 then 9/100
  else if 75 ≤ t ∧ t < 99 then 12/100
  else if 100 ≤ t then 15/100
  else 0

/-- Column-wise equality of two `Streaks` rows, by column name. -/
def colEq (c : String) (r1 r2 : StreakRow) : Bool :=
  match c with
  | "id" => r1.id == r2.id
  | "guildId" => r1.guildId == r2.guildId
  | "userId" => r1.userId == r2.userId
  | "triggerWord" => decide (r1.triggerWord = r2.triggerWord)
  | "count" => r1.count == r2.count
  | "bestStreak" => r1.bestStreak == r2.bestStreak
  | "streakStreak" => r1.streakStreak == r2.streakStreak
  | "lastStreakDate" => decide (r1.lastStreakDate = r2.lastStreakDate)
  | "lastUpdated" => r1.lastUpdated == r2.lastUpdated
  | _ => true

/-- The unique key sets the `Streak` model declares (models/index.js lines
62-110): `id` is `primaryKey`, no column carries `unique`, and the
`sequelize.define` call passes no `indexes` option, so the primary key is the
only uniqueness constraint. -/
def streakUniqueKeySets : List (List String) := [["id"]]

/-- Whether a table of rows is admitted by every uniqueness constraint the
`Streak` model declares: rows agreeing on all columns of a declared unique
key set are the same row. -/
def streakTableAdmits (rows : List StreakRow) : Bool :=
  streakUniqueKeySets.all fun ks =>
    rows.all fun r1 => rows.all fun r2 =>
      !(ks.all fun c => colEq c r1 r2) || decide (r1 = r2)

/-! ## Helper lemmas -/

theorem dropWhile_head_not (p : Nat → Bool) (l : List Nat) :
    ∀ a, (l.dropWhile p).head? = some a → p a = false := by
  induction l with
  | nil => intro a h; simp [List.dropWhile] at h
  | cons x xs ih =>
    intro a h
    rw [List.dropWhile_cons] at h
    by_cases hx : p x
    · rw [if_pos hx] at h
      exact ih a h
    · rw [if_neg hx] at h
      simp at h
      rw [← h]
      simpa using hx

theorem dropWhile_eq_self (p : Nat → Bool) (l : List Nat)
    (h : ∀ a, l.head? = some a → p a = false) : l.dropWhile p = l := by
  cases l with
  | nil => rfl
  | cons x xs =>
    rw [List.dropWhile_cons, if_neg]
    simp [h x rfl]

theorem dropWhile_getLast (p : Nat → Bool) (l : List Nat)
    (h : l.dropWhile p ≠ []) : (l.dropWhile p).getLast? = l.getLast? := by
  induction l with
  | nil => simp [List.dropWhile] at h
  | cons x xs ih =>
    rw [List.dropWhile_cons] at h ⊢
    by_cases hx : p x
    · rw [if_pos hx] at h ⊢
      cases xs with
      | nil => simp [List.dropWhile] at h
      | cons y ys =>
        rw [ih h, List.getLast?_cons_cons]
    · rw [if_neg hx]

theorem mem_jsTrim {a : Nat} {s : JStr} (h : a ∈ jsTrim s) : a ∈ s := by
  unfold jsTrim at h
  have h1 := List.mem_reverse.mp h
  have h2 := (List.dropWhile_sublist jsWhitespace).mem h1
  have h3 := List.mem_reverse.mp h2
  exact (List.dropWhile_sublist jsWhitespace).mem h3

theorem jsTrim_fix (l : JStr)
    (h1 : ∀ a, l.head? = some a → jsWhitespace a = false)
    (h2 : ∀ a, l.reverse.head? = some a → jsWhitespace a = false) :
    jsTrim l = l := by
  unfold jsTrim
  rw [dropWhile_eq_self _ _ h1, dropWhile_eq_self _ _ h2, List.reverse_reverse]

theorem jsTrim_idem (s : JStr) : jsTrim (jsTrim s) = jsTrim s := by
  have hd := dropWhile_head_not jsWhitespace s
  have hu := dropWhile_head_not jsWhitespace (s.dropWhile jsWhitespace).reverse
  have hrepr :
      jsTrim s =
        ((s.dropWhile jsWhitespace).reverse.dropWhile jsWhitespace).reverse :=
    rfl
  by_cases hne :
      (s.dropWhile jsWhitespace).reverse.dropWhile jsWhitespace = []
  · have hnil : jsTrim s = [] := by rw [hrepr, hne]; rfl
    rw [hnil]; rfl
  · apply jsTrim_fix
    · intro a ha
      rw [hrepr, List.head?_reverse, dropWhile_getLast _ _ hne,
        List.getLast?_reverse] at ha
      exact hd a ha
    · intro a ha
      rw [hrepr, List.reverse_reverse] at ha
      exact hu a ha

theorem map_eq_self_of_fix {f : Nat → Nat} :
    ∀ l : List Nat, (∀ a ∈ l, f a = a) → l.map f = l := by
  intro l h
  induction l with
  | nil => rfl
  | cons x xs ih =>
    rw [List.map_cons, h x (List.mem_cons_self x xs),
      ih fun a ha => h a (List.mem_cons_of_mem x ha)]

theorem jsCharToLower_idem (c : Nat) :
    jsCharToLower (jsCharToLower c) = jsCharToLower c := by
  unfold jsCharToLower
  split_ifs <;> omega

theorem jsToLowerCase_mem_fix {a : Nat} {w : JStr} (h : a ∈ jsToLowerCase w) :
    jsCharToLower a = a := by
  unfold jsToLowerCase at h
  obtain ⟨b, _, hb⟩ := List.mem_map.mp h
  rw [← hb]
  exact jsCharToLower_idem b

theorem addColumns_mem_of_mem {a : String} (l : List String)
    {cols : List String} (h : a ∈ cols) : a ∈ (addColumns cols l).1 := by
  induction l generalizing cols with
  | nil => exact h
  | cons c rest ih =>
    unfold addColumns
    by_cases hc : c ∈ cols
    · rw [if_pos hc]
      exact ih h
    · rw [if_neg hc]
      exact ih (List.mem_append_left [c] h)

theorem addColumns_mem_target {a : String} {l : List String}
    (cols : List String) (h : a ∈ l) : a ∈ (addColumns cols l).1 := by
  induction l generalizing cols with
  | nil => simp at h
  | cons c rest ih =>
    unfold addColumns
    rcases List.mem_cons.mp h with rfl | hrest
    · by_cases hc : a ∈ cols
      · rw [if_pos hc]
        exact addColumns_mem_of_mem rest hc
      · rw [if_neg hc]
        exact addColumns_mem_of_mem rest
          (List.mem_append_right cols (List.mem_singleton.mpr rfl))
    · by_cases hc : c ∈ cols
      · rw [if_pos hc]
        exact ih cols hrest
      · rw [if_neg hc]
        exact ih (cols ++ [c]) hrest

theorem addColumns_of_subset {l cols : List String}
    (h : ∀ a ∈ l, a ∈ cols) : addColumns cols l = (cols, 0) := by
  induction l with
  | nil => rfl
  | cons c rest ih =>
    unfold addColumns
    rw [if_pos (h c (List.mem_cons_self c rest))]
    exact ih fun a ha => h a (List.mem_cons_of_mem c ha)

theorem migrateRun_tables_missing (db : DbState) (failAt : Option MigFail)
    (restoreFails : Bool)
    (h : db.hasGuildConfigs = false ∨ db.hasStreaks = false) :
    migrateRun db failAt restoreFails =
      { db := db, additions := 0, committed := true, rolledBack := false,
        restoreAttempted := false, restoredOk := false, thrown := false } := by
  unfold migrateRun
  rcases h with h | h <;> rw [h] <;> simp

theorem migrateRun_success_run (db : DbState) (restoreFails : Bool)
    (h1 : db.hasGuildConfigs = true) (h2 : db.hasStreaks = true) :
    migrateRun db none restoreFails =
      { db := { db with
                guildConfigCols :=
                  (addColumns db.guildConfigCols guildConfigColumnsToAdd).1
                streakCols :=
                  (addColumns (addColumns db.streakCols streakColumnsToAdd).1
                    requiredStreakColumns).1
                streakRows := db.streakRows.map fixBestStreak },
        additions := (addColumns db.guildConfigCols guildConfigColumnsToAdd).2 +
          (addColumns db.streakCols streakColumnsToAdd).2 +
          (addColumns (addColumns db.streakCols streakColumnsToAdd).1
            requiredStreakColumns).2,
        committed := true, rolledBack := false, restoreAttempted := false,
        restoredOk := false, thrown := false } := by
  unfold migrateRun
  rw [h1, h2]
  simp

theorem migrateRun_db_none (db : DbState) (rf : Bool)
    (h1 : db.hasGuildConfigs = true) (h2 : db.hasStreaks = true) :
    (migrateRun db none rf).db =
      { db with
        guildConfigCols :=
          (addColumns db.guildConfigCols guildConfigColumnsToAdd).1
        streakCols :=
          (addColumns (addColumns db.streakCols streakColumnsToAdd).1
            requiredStreakColumns).1
        streakRows := db.streakRows.map fixBestStreak } := by
  rw [migrateRun_success_run db rf h1 h2]

theorem migrateRun_additions_none (db : DbState) (rf : Bool)
    (h1 : db.hasGuildConfigs = true) (h2 : db.hasStreaks = true) :
    (migrateRun db none rf).additions =
      (addColumns db.guildConfigCols guildConfigColumnsToAdd).2 +
        (addColumns db.streakCols streakColumnsToAdd).2 +
        (addColumns (addColumns db.streakCols streakColumnsToAdd).1
          requiredStreakColumns).2 := by
  rw [migrateRun_success_run db rf h1 h2]

/-! ## Claims -/

def c1PrevRow : StreakRow :=
  { id := 1, guildId := "g", userId := "u", triggerWord := jstr "hello",
    count := 5, bestStreak := 5, streakStreak := 0, lastStreakDate := none,
    lastUpdated := 0 }

def c1MutRow : StreakRow := { c1PrevRow with bestStreak := 0 }

def c1IncRow : StreakRow := { c1PrevRow with count := 6 }

/-- Claim C1, counterexample.  The claim says every mutation applied through
the model layer leaves `bestStreak ≥ count`.  But the `beforeSave` hook only
acts when the save changed `count`: a model-layer save that lowers
`bestStreak` to 0 while leaving `count = 5` untouched passes through the hook
unchanged and ends with `bestStreak = 0 < 5 = count`. -/
theorem saveStreak_nonCount_mutation_breaks_invariant :
    (saveStreak c1PrevRow c1MutRow).bestStreak <
      (saveStreak c1PrevRow c1MutRow).count := by
  decide

/-- Claim C1, amended: after every model-layer save whose mutation changes
`count`, the `beforeSave` hook guarantees `bestStreak ≥ count`; and the
startup migration data fix-up leaves every Streaks row with
`bestStreak ≥ count`.  (A save that lowers `bestStreak` below `count` without
changing `count` is not corrected by the hook.) -/
theorem saveStreak_invariant :
    (∀ prev updated : StreakRow, updated.count ≠ prev.count →
        (saveStreak prev updated).count ≤ (saveStreak prev updated).bestStreak)
    ∧ ∀ db : DbState, ∀ rf : Bool, db.hasGuildConfigs = true →
        db.hasStreaks = true → ∀ r ∈ (migrateRun db none rf).db.streakRows,
          r.count ≤ r.bestStreak := by
  constructor
  · intro prev updated hne
    unfold saveStreak
    by_cases hlt : updated.bestStreak < updated.count
    · rw [if_pos ⟨hne, hlt⟩]
    · rw [if_neg fun hc => hlt hc.2]
      omega
  · intro db rf h1 h2 r hr
    rw [migrateRun_db_none db rf h1 h2] at hr
    simp only at hr
    obtain ⟨r0, _, hre⟩ := List.mem_map.mp hr
    rw [← hre]
    unfold fixBestStreak
    by_cases h : r0.bestStreak < r0.count
    · rw [if_pos h]
    · rw [if_neg h]
      omega

/-- Claim C1, witness for the amended theorem: a save that increments `count`
from 5 to 6 ends with `count ≤ bestStreak`. -/
theorem saveStreak_invariant_witness :
    (saveStreak c1PrevRow c1IncRow).count ≤
      (saveStreak c1PrevRow c1IncRow).bestStreak :=
  saveStreak_invariant.1 c1PrevRow c1IncRow (by decide)

def dupRowA : StreakRow :=
  { id := 1, guildId := "g", userId := "u", triggerWord := jstr "hello",
    count := 3, bestStreak := 3, streakStreak := 0, lastStreakDate := none,
    lastUpdated := 0 }

def dupRowB : StreakRow := { dupRowA with id := 2 }

/-- Claim C2, counterexample.  The `Streak` model declares no uniqueness
constraint over `(guildId, userId, triggerWord)`: a table holding two
distinct rows that agree on that triple satisfies every uniqueness constraint
the model does declare (only the `id` primary key). -/
theorem streak_triple_not_unique :
    streakTableAdmits [dupRowA, dupRowB] = true ∧
      dupRowA.guildId = dupRowB.guildId ∧ dupRowA.userId = dupRowB.userId ∧
      dupRowA.triggerWord = dupRowB.triggerWord ∧ dupRowA ≠ dupRowB := by
  decide

/-- Claim C2, amended: the only uniqueness constraint the persisted `Streak`
table carries is the autoincrement primary key `id` — rows admitted by the
declared constraints are determined by their `id`, while rows sharing
`(guildId, userId, triggerWord)` under distinct ids are admitted. -/
theorem streak_unique_key_is_id :
    ∀ rows : List StreakRow, streakTableAdmits rows = true →
      ∀ r1 ∈ rows, ∀ r2 ∈ rows, r1.id = r2.id → r1 = r2 := by
  intro rows h r1 h1 r2 h2 hid
  unfold streakTableAdmits at h
  rw [List.all_eq_true] at h
  have hk := h ["id"] (by simp [streakUniqueKeySets])
  rw [List.all_eq_true] at hk
  have hr1 := hk r1 h1
  rw [List.all_eq_true] at hr1
  have hr12 := hr1 r2 h2
  have hc : colEq "id" r1 r2 = (r1.id == r2.id) := rfl
  simp [hc, hid] at hr12
  exact hr12

/-- Claim C2, witness for the amended theorem: applied to a concrete
single-row table. -/
theorem streak_unique_key_is_id_witness : dupRowA = dupRowA :=
  streak_unique_key_is_id [dupRowA] (by decide) dupRowA (by decide) dupRowA
    (by decide) rfl

/-- Claim C3: every `ALTER TABLE ... ADD COLUMN` in `migrateDatabase` is
guarded by a `checkColumnExists` check, so running `migrateDatabase` a second
time immediately after a successful run performs zero column additions, for
every starting schema state. -/
theorem migrate_idempotent (db : DbState) (rf1 rf2 : Bool) :
    (migrateRun (migrateRun db none rf1).db none rf2).additions = 0 := by
  by_cases h : db.hasGuildConfigs = true ∧ db.hasStreaks = true
  · obtain ⟨h1, h2⟩ := h
    have h1b : (migrateRun db none rf1).db.hasGuildConfigs = true := by
      rw [migrateRun_db_none db rf1 h1 h2]
      exact h1
    have h2b : (migrateRun db none rf1).db.hasStreaks = true := by
      rw [migrateRun_db_none db rf1 h1 h2]
      exact h2
    rw [migrateRun_additions_none _ rf2 h1b h2b]
    rw [migrateRun_db_none db rf1 h1 h2]
    simp only
    have hA : ∀ a ∈ guildConfigColumnsToAdd,
        a ∈ (addColumns db.guildConfigCols guildConfigColumnsToAdd).1 :=
      fun a ha => addColumns_mem_target _ ha
    have hB : ∀ a ∈ streakColumnsToAdd,
        a ∈ (addColumns (addColumns db.streakCols streakColumnsToAdd).1
          requiredStreakColumns).1 :=
      fun a ha =>
        addColumns_mem_of_mem _ (addColumns_mem_target _ ha)
    have hC : ∀ a ∈ requiredStreakColumns,
        a ∈ (addColumns (addColumns db.streakCols streakColumnsToAdd).1
          requiredStreakColumns).1 :=
      fun a ha => addColumns_mem_target _ ha
    rw [addColumns_of_subset hA, addColumns_of_subset hB,
      addColumns_of_subset hC]
    rfl
  · have h3 : db.hasGuildConfigs = false ∨ db.hasStreaks = false := by
      revert h
      cases db.hasGuildConfigs <;> cases db.hasStreaks <;> simp
    rw [migrateRun_tables_missing db none rf1 h3]
    show (migrateRun db none rf2).additions = 0
    rw [migrateRun_tables_missing db none rf2 h3]

/-- Claim C10: when the `GuildConfigs` table or the `Streaks` table does not
exist, `migrateDatabase` commits its transaction and returns early: no column
is added, no row is updated, nothing is rolled back or thrown, and the
database state is returned unchanged. -/
theorem migrate_missing_tables_noop (db : DbState) (failAt : Option MigFail)
    (restoreFails : Bool)
    (h : db.hasGuildConfigs = false ∨ db.hasStreaks = false) :
    migrateRun db failAt restoreFails =
      { db := db, additions := 0, committed := true, rolledBack := false,
        restoreAttempted := false, restoredOk := false, thrown := false } :=
  migrateRun_tables_missing db failAt restoreFails h

def dbNoTables : DbState :=
  { hasGuildConfigs := false, hasStreaks := true, guildConfigCols := [],
    streakCols := [], streakRows := [] }

/-- Claim C10, witness: a state without the `GuildConfigs` table is returned
unchanged, committed, with zero additions. -/
theorem migrate_missing_tables_noop_witness :
    migrateRun dbNoTables none false =
      { db := dbNoTables, additions := 0, committed := true,
        rolledBack := false, restoreAttempted := false, restoredOk := false,
        thrown := false } :=
  migrate_missing_tables_noop dbNoTables none false (Or.inl rfl)

def dbBothTables : DbState :=
  { hasGuildConfigs := true, hasStreaks := true,
    guildConfigCols := ["guildId", "triggerWords", "streakLimit"],
    streakCols := ["id", "guildId", "userId", "triggerWord", "count",
                   "lastUpdated"],
    streakRows := [] }

/-- Claim C4, counterexample.  A failure inside the inner `try` of
`migrateDatabase` (here: during the ALTER/UPDATE work, with the subsequent
restore attempt also failing) is caught by the inner catch, which rolls back
and attempts the restore but never rethrows: `migrateDatabase` returns
normally, `initializeDatabase` sees no error, and startup proceeds — the
failure is swallowed after logging, contradicting the claim that it is
surfaced as a startup-fatal error. -/
theorem migration_failure_swallowed :
    (migrateRun dbBothTables (some MigFail.alter) true).rolledBack = true ∧
      (migrateRun dbBothTables (some MigFail.alter) true).restoreAttempted
        = true ∧
      (migrateRun dbBothTables (some MigFail.alter) true).restoredOk = false ∧
      (migrateRun dbBothTables (some MigFail.alter) true).thrown = false ∧
      initializeDatabaseFails dbBothTables (some MigFail.alter) true = false := by
  decide

/-- Claim C4, amended: when both tables exist, a failure while the backups
are taken (still inside the outer `try`) rolls the transaction back and is
rethrown, making startup fail, with no restore attempt; a failure during the
ALTER/UPDATE work or the commit is caught by the inner catch, which rolls
back and attempts a restore from the in-memory backups, but the error —
including any failure of the restore itself — is logged and swallowed, so
`migrateDatabase` returns normally and startup continues. -/
theorem migration_failure_handling :
    ∀ (db : DbState) (rf : Bool), db.hasGuildConfigs = true →
      db.hasStreaks = true →
      (∀ f, f = MigFail.backupGuildConfigs ∨ f = MigFail.backupStreaks →
        migrateRun db (some f) rf =
          { db := db, additions := 0, committed := false, rolledBack := true,
            restoreAttempted := false, restoredOk := false, thrown := true })
      ∧ ∀ f, f = MigFail.alter ∨ f = MigFail.commitFail →
          migrateRun db (some f) rf =
            { db := db, additions := 0, committed := false,
              rolledBack := true, restoreAttempted := true,
              restoredOk := !rf, thrown := false } := by
  intro db rf h1 h2
  constructor
  · intro f hf
    unfold migrateRun
    rw [h1, h2]
    rcases hf with rfl | rfl <;> simp
  · intro f hf
    unfold migrateRun
    rw [h1, h2]
    rcases hf with rfl | rfl <;> simp

/-- Claim C4, witness for the amended theorem: a backup-phase failure on a
concrete state rolls back and rethrows. -/
theorem migration_failure_handling_witness :
    migrateRun dbBothTables (some MigFail.backupStreaks) false =
      { db := dbBothTables, additions := 0, committed := false,
        rolledBack := true, restoreAttempted := false, restoredOk := false,
        thrown := true } :=
  (migration_failure_handling dbBothTables false rfl rfl).1
    MigFail.backupStreaks (Or.inr rfl)

/-- Claim C5, counterexample.  The claim is internally inconsistent: its
half-open tier `[10,24) → +0.03` together with its catch-all
`anything else gives 0` assigns bonus 0 to `targetCount = 24`, yet the claim
simultaneously asserts `targetCount = 24` yields `+0.03` — which is what the
modelled function (per the README tier table and the spec §8 instances)
computes.  At 24 the interval step function of the claim and the modelled bonus
disagree. -/
theorem progressiveBonus_claim_inconsistent_at_24 :
    progressiveBonusClaimIntervals 24 = 0 ∧
      progressiveBonus 24 = 3/100 ∧
      progressiveBonusClaimIntervals 24 ≠ progressiveBonus 24 := by
  refine ⟨?_, ?_, ?_⟩ <;> norm_num [progressiveBonusClaimIntervals,
    progressiveBonus]

/-- Claim C5, amended: the raid progressive bonus is a pure step function of
the streak count of the target with inclusive tier bounds — `[10,24] → +0.03`,
`[25,49] → +0.06`, `[50,74] → +0.09`, `[75,99] → +0.12`, `[100,∞) → +0.15`,
below 10 → 0 — and in particular `targetCount = 24` yields `+0.03` and
`targetCount = 25` yields `+0.06`. -/
theorem progressiveBonus_tiers :
    ∀ t : Int,
      (10 ≤ t ∧ t ≤ 24 → progressiveBonus t = 3/100) ∧
      (25 ≤ t ∧ t ≤ 49 → progressiveBonus t = 6/100) ∧
      (50 ≤ t ∧ t ≤ 74 → progressiveBonus t = 9/100) ∧
      (75 ≤ t ∧ t ≤ 99 → progressiveBonus t = 12/100) ∧
      (100 ≤ t → progressiveBonus t = 15/100) ∧
      (t < 10 → progressiveBonus t = 0) := by
  intro t
  unfold progressiveBonus
  refine ⟨?_, ?_, ?_, ?_, ?_, ?_⟩ <;> intro h <;> split_ifs <;>
    first
      | rfl
      | omega

/-- Claim C5, witness for the amended theorem: the boundary instances 24 and
25 from the claim. -/
theorem progressiveBonus_tiers_witness :
    progressiveBonus 24 = 3/100 ∧ progressiveBonus 25 = 6/100 :=
  ⟨(progressiveBonus_tiers 24).1 (by norm_num),
   (progressiveBonus_tiers 25).2.1 (by norm_num)⟩

/-- Claim C6, counterexample.  The `triggerWords` setter lower-cases, trims
and drops empty entries, but performs no deduplication: writing the list
`["hi", "hi"]` stores `["hi", "hi"]`, so the stored value can contain
duplicates, contradicting the claim that duplicates are removed. -/
theorem setTriggerWords_keeps_duplicates :
    setTriggerWords [JSValue.str (jstr "hi"), JSValue.str (jstr "hi")] =
        [jstr "hi", jstr "hi"] ∧
      ¬ (setTriggerWords
          [JSValue.str (jstr "hi"), JSValue.str (jstr "hi")]).Nodup := by
  decide

/-- Claim C6, amended: every string the `triggerWords` setter stores is
non-empty, whitespace-trimmed and lower-cased (each stored word is a fixed
point of trimming and of lower-casing, so equality comparisons at read time
need no normalization) — but duplicates are not removed. -/
theorem setTriggerWords_normalized :
    ∀ value : List JSValue, ∀ w ∈ setTriggerWords value,
      0 < w.length ∧ jsTrim w = w ∧ jsToLowerCase w = w := by
  intro value w hw
  unfold setTriggerWords at hw
  obtain ⟨hmem, hlen⟩ := List.mem_filter.mp hw
  obtain ⟨w0, _, hmap⟩ := List.mem_map.mp hmem
  refine ⟨by simpa using hlen, ?_, ?_⟩
  · rw [← hmap]
    exact jsTrim_idem (jsToLowerCase w0)
  · rw [← hmap]
    unfold jsToLowerCase
    exact map_eq_self_of_fix _ fun a ha =>
      jsToLowerCase_mem_fix (mem_jsTrim ha)

/-- Claim C6, witness for the amended theorem: the stored word produced from
the input `" Hi "` is `"hi"`, which is non-empty, trimmed and lower-cased. -/
theorem setTriggerWords_normalized_witness :
    0 < (jstr "hi").length ∧ jsTrim (jstr "hi") = jstr "hi" ∧
      jsToLowerCase (jstr "hi") = jstr "hi" :=
  setTriggerWords_normalized [JSValue.str (jstr " Hi ")] (jstr "hi")
    (by decide)

theorem withRetryGo_retry (op : Nat → Except JsError Nat)
    (mr attempt : Nat) (le : Option JsError) (ds : List Nat) (e : JsError)
    (ha : op attempt = Except.error e)
    (hr : retryOnError e = true) (hlt : attempt < mr) :
    withRetryGo op mr attempt le ds =
      withRetryGo op mr (attempt + 1) (some e)
        (ds ++ [retryConfigRetryDelay * attempt]) := by
  conv_lhs => rw [withRetryGo]
  rw [if_neg (by omega), ha]
  exact dif_pos ⟨hr, hlt⟩

theorem withRetryGo_throw (op : Nat → Except JsError Nat)
    (mr attempt : Nat) (le : Option JsError) (ds : List Nat) (e : JsError)
    (hle : attempt ≤ mr) (ha : op attempt = Except.error e)
    (hn : ¬(retryOnError e = true ∧ attempt < mr)) :
    withRetryGo op mr attempt le ds = (Except.error (some e), ds) := by
  conv_lhs => rw [withRetryGo]
  rw [if_neg (by omega), ha]
  exact dif_neg hn

/-- Claim C7: under `withRetry`, an operation failing with transient
connection errors is attempted exactly `maxRetries = 3` times with linearly
growing backoff (1000·1 ms, then 1000·2 ms) and the last error is then
thrown; an operation failing with a non-transient error has that error
thrown immediately, with no further attempts and no backoff — whether it is
the first attempt or follows a transient failure. -/
theorem withRetry_spec :
    (∀ (op : Nat → Except JsError Nat) (e1 e2 e3 : JsError),
        op 1 = Except.error e1 → op 2 = Except.error e2 →
        op 3 = Except.error e3 → retryOnError e1 = true →
        retryOnError e2 = true →
        withRetry op = (Except.error (some e3), [1000, 2000]))
    ∧ (∀ (op : Nat → Except JsError Nat) (e : JsError),
        op 1 = Except.error e → retryOnError e = false →
        withRetry op = (Except.error (some e), []))
    ∧ ∀ (op : Nat → Except JsError Nat) (e1 e2 : JsError),
        op 1 = Except.error e1 → retryOnError e1 = true →
        op 2 = Except.error e2 → retryOnError e2 = false →
        withRetry op = (Except.error (some e2), [1000]) := by
  refine ⟨?_, ?_, ?_⟩
  · intro op e1 e2 e3 h1 h2 h3 r1 r2
    unfold withRetry retryConfigMaxRetries
    rw [withRetryGo_retry op 3 1 none [] e1 h1 r1 (by norm_num)]
    rw [withRetryGo_retry op 3 2 (some e1) _ e2 h2 r2 (by norm_num)]
    rw [withRetryGo_throw op 3 3 (some e2) _ e3 (by norm_num) h3 (by simp)]
    simp [retryConfigRetryDelay]
  · intro op e h1 hr
    unfold withRetry retryConfigMaxRetries
    rw [withRetryGo_throw op 3 1 none [] e (by norm_num) h1 (by simp [hr])]
  · intro op e1 e2 h1 r1 h2 r2
    unfold withRetry retryConfigMaxRetries
    rw [withRetryGo_retry op 3 1 none [] e1 h1 r1 (by norm_num)]
    rw [withRetryGo_throw op 3 2 (some e1) _ e2 (by norm_num) h2
      (by simp [r2])]
    simp [retryConfigRetryDelay]

def connErr : JsError := { name := "SequelizeConnectionError" }

/-- Claim C7, witness: an operation that always fails with a transient
connection error is attempted three times, sleeps 1000 ms then 2000 ms, and
the last error is thrown. -/
theorem withRetry_spec_witness :
    withRetry (fun _ => Except.error connErr) =
      (Except.error (some connErr), [1000, 2000]) :=
  withRetry_spec.1 (fun _ => Except.error connErr) connErr connErr connErr
    rfl rfl rfl (by decide) (by decide)

/-- Claim C8: a freshly created `Streak` record (no explicit `count` or
`bestStreak` supplied) carries the column defaults of the model: `count = 1`,
`bestStreak = 1`, `streakStreak = 0` and `lastStreakDate = NULL`. -/
theorem createStreak_defaults (id : Int) (g u : String) (w : JSValue)
    (now : Nat) (r : StreakRow)
    (h : createStreak id g u w now = Except.ok r) :
    r.count = 1 ∧ r.bestStreak = 1 ∧ r.streakStreak = 0 ∧
      r.lastStreakDate = none := by
  unfold createStreak at h
  cases hw : setTriggerWord w with
  | error e =>
    rw [hw] at h
    cases h
  | ok tw =>
    rw [hw] at h
    injection h with h
    rw [← h]
    exact ⟨rfl, rfl, rfl, rfl⟩

def c8Row : StreakRow :=
  { id := 1, guildId := "g", userId := "u", triggerWord := jstr "hello",
    count := 1, bestStreak := 1, streakStreak := 0, lastStreakDate := none,
    lastUpdated := 0 }

/-- Claim C8, witness: creating a streak for the word `"hello"` yields the
default fields. -/
theorem createStreak_defaults_witness :
    c8Row.count = 1 ∧ c8Row.bestStreak = 1 ∧ c8Row.streakStreak = 0 ∧
      c8Row.lastStreakDate = none :=
  createStreak_defaults 1 "g" "u" (JSValue.str (jstr "hello")) 0 c8Row rfl

/-- Claim C9: the `Streak.triggerWord` setter throws for `null`, `undefined`
and any non-string value, but a whitespace-only string such as `" "` is
truthy, passes the non-emptiness check (which runs before trimming), and is
stored as the empty string. -/
theorem setTriggerWord_validation :
    (∀ v : JSValue, isString v = false →
        setTriggerWord v =
          Except.error "Trigger word must be a non-empty string")
    ∧ setTriggerWord (JSValue.str (jstr " ")) = Except.ok [] := by
  constructor
  · intro v hv
    cases v <;> simp_all [setTriggerWord, isString]
  · rfl

/-- Claim C9, witness: setting `null` throws the validation error. -/
theorem setTriggerWord_validation_witness :
    setTriggerWord JSValue.nullv =
      Except.error "Trigger word must be a non-empty string" :=
  setTriggerWord_validation.1 JSValue.nullv rfl
